import Mathlib

/-!
Verification of the observation-map builder (`scripts/build_map.py`).

The development shallowly embeds the script's core logic:
* `color_for_species` (source lines 59-73): SHA-1 of the species name,
  reduced to a hue, converted to an RGB hex triplet.  Python float
  arithmetic is modelled by exact rational arithmetic; for the fixed
  saturation 0.70 and lightness 0.45 the scaled channel values are
  multiples of 1/400 and stay far from integers, so exact rationals and
  IEEE doubles truncate identically on every hue.
* the fetch cache `get_data` (lines 92-99), with the external fetch as an
  explicit function argument and the cache as explicit state,
* the aggregation loop of `make_map` (lines 509-524),
* the species-layer decision (lines 526-527),
* `prune_archive` (lines 447-460), with the directory as a list of
  file names,
* `compute_dt_et` (lines 212-227), with the two environment overrides as
  string arguments ("" models an unset variable, as `os.getenv` defaults).
-/

/-- Truncation toward zero, the semantics of Python `int()` applied to a
number (used for `int(radius_km)`, `int(back_days)` and the float→int
conversions in `hsl_to_rgb`). -/
def pyTrunc (q : ℚ) : ℤ := if q < 0 then ⌈q⌉ else ⌊q⌋

/-- Round to the nearest integer, ties to even: the rounding used by
Python's builtin `round`. -/
def roundHalfEven (q : ℚ) : ℤ :=
  if q - ⌊q⌋ < 1 / 2 then ⌊q⌋
  else if q - ⌊q⌋ > 1 / 2 then ⌊q⌋ + 1
  else if ⌊q⌋ % 2 = 0 then ⌊q⌋ else ⌊q⌋ + 1

/-- Python `round(q, 6)`: round to 6 decimal places, ties to even. -/
def pyRound6 (q : ℚ) : ℚ := (roundHalfEven (q * 1000000) : ℚ) / 1000000

/-- Python `%` on numbers: remainder with the sign of the divisor,
`a - b * floor (a / b)`. -/
def qmod (a b : ℚ) : ℚ := a - b * ⌊a / b⌋

/-- Lower-case hexadecimal digit, as produced by Python's format spec `x`. -/
def hexChar (n : Nat) : Char :=
  if n < 10 then Char.ofNat (48 + n) else Char.ofNat (87 + n)

/-- Two-digit lower-case hexadecimal rendering of a byte, Python's
`"{:02x}".format n` for `n < 256`. -/
def hexByte (n : Nat) : String :=
  String.mk [hexChar (n / 16 % 16), hexChar (n % 16)]

/-- UTF-8 encoding of one Unicode scalar value, as a list of byte values. -/
def utf8Char (c : Char) : List Nat :=
  let n := c.toNat
  if n < 128 then [n]
  else if n < 2048 then [192 + n / 64, 128 + n % 64]
  else if n < 65536 then [224 + n / 4096, 128 + n / 64 % 64, 128 + n % 64]
  else [240 + n / 262144, 128 + n / 4096 % 64, 128 + n / 64 % 64, 128 + n % 64]

/-- UTF-8 encoding of a string (Python `s.encode("utf-8")`). -/
def utf8Bytes (s : String) : List Nat := s.data.flatMap utf8Char

/-- Rotate a 32-bit word (a natural number below `2 ^ 32`) left by `k`. -/
def rotl32 (x k : Nat) : Nat := (x <<< k) % 4294967296 ||| x >>> (32 - k)

/-- SHA-1 padding: append `0x80`, zero bytes to 56 mod 64, and the
original bit length as an 8-byte big-endian integer. -/
def sha1Pad (msg : List Nat) : List Nat :=
  let len := msg.length
  let zeros := (120 - (len + 1) % 64) % 64
  msg ++ [128] ++ List.replicate zeros 0 ++
    (List.range 8).map (fun i => ((len * 8) >>> (8 * (7 - i))) % 256)

/-- The SHA-1 round function `f_t`. -/
def sha1F (t b c d : Nat) : Nat :=
  if t < 20 then b &&& c ||| (b ^^^ 4294967295) &&& d
  else if t < 40 then b ^^^ c ^^^ d
  else if t < 60 then b &&& c ||| b &&& d ||| c &&& d
  else b ^^^ c ^^^ d

/-- The SHA-1 round constant `K_t`. -/
def sha1K (t : Nat) : Nat :=
  if t < 20 then 1518500249
  else if t < 40 then 1859775393
  else if t < 60 then 2400959708
  else 3395469782

/-- Extend the 16 message words of a block to the 80-word schedule. -/
def sha1Schedule (w : List Nat) : List Nat :=
  (List.range 64).foldl
    (fun w _ =>
      let n := w.length
      w ++ [rotl32 (w.getD (n - 3) 0 ^^^ w.getD (n - 8) 0 ^^^
                    w.getD (n - 14) 0 ^^^ w.getD (n - 16) 0) 1])
    w

/-- Compress one 64-byte block into the running SHA-1 state. -/
def sha1Block (h : Nat × Nat × Nat × Nat × Nat) (block : List Nat) :
    Nat × Nat × Nat × Nat × Nat :=
  let w := sha1Schedule ((List.range 16).map
    (fun j => ((block.drop (4 * j)).take 4).foldl (fun a b => a * 256 + b) 0))
  let (h0, h1, h2, h3, h4) := h
  let (a, b, c, d, e) :=
    (List.range 80).foldl
      (fun st t =>
        let (a, b, c, d, e) := st
        let temp := (rotl32 a 5 + sha1F t b c d + e + sha1K t + w.getD t 0) %
          4294967296
        (temp, a, rotl32 b 30, c, d))
      (h0, h1, h2, h3, h4)
  ((h0 + a) % 4294967296, (h1 + b) % 4294967296, (h2 + c) % 4294967296,
   (h3 + d) % 4294967296, (h4 + e) % 4294967296)

/-- SHA-1 digest of a byte sequence, as the 160-bit big-endian integer
that Python's `int(hashlib.sha1(bs).hexdigest(), 16)` denotes. -/
def sha1Nat (msg : List Nat) : Nat :=
  let padded := sha1Pad msg
  let blocks := (List.range (padded.length / 64)).map
    (fun i => (padded.drop (64 * i)).take 64)
  let (h0, h1, h2, h3, h4) :=
    blocks.foldl sha1Block (1732584193, 4023233417, 2562383102, 271733878,
      3285377520)
  (((h0 * 4294967296 + h1) * 4294967296 + h2) * 4294967296 + h3) *
    4294967296 + h4

/-- The inner `hsl_to_rgb` of `color_for_species` (source lines 61-72),
at the fixed defaults `s = 0.70`, `l = 0.45`, over exact rationals.
`h` is the integer hue in `[0, 360)`. -/
def hsl_to_rgb (h : Nat) : String :=
  let s : ℚ := 70 / 100
  let l : ℚ := 45 / 100
  let c : ℚ := (1 - |2 * l - 1|) * s
  let x : ℚ := c * (1 - |qmod ((h : ℚ) / 60) 2 - 1|)
  let m : ℚ := l - c / 2
  let rgb : ℚ × ℚ × ℚ :=
    if h < 60 then (c, x, 0)
    else if h < 120 then (x, c, 0)
    else if h < 180 then (0, c, x)
    else if h < 240 then (0, x, c)
    else if h < 300 then (x, 0, c)
    else (c, 0, x)
  "#" ++ hexByte (pyTrunc ((rgb.1 + m) * 255)).toNat ++
    hexByte (pyTrunc ((rgb.2.1 + m) * 255)).toNat ++
    hexByte (pyTrunc ((rgb.2.2 + m) * 255)).toNat

/-- `color_for_species` (source lines 59-73): SHA-1 the name (Python
`name or 'Unknown'` replaces the empty string), reduce mod 360 to a hue,
convert through `hsl_to_rgb`. -/
def color_for_species (name : String) : String :=
  let h := sha1Nat (utf8Bytes (if name = "" then "Unknown" else name)) % 360
  hsl_to_rgb h

/-- Modelled from the spec (section 4.3), for the refinement claim about
`color_for_species`: "hash the species name (default `Unknown` for
absent) with a cryptographic-strength hash, reduce to an integer hue in
[0, 360) via modulo, then convert hue plus fixed saturation (0.70) and
lightness (0.45) to an RGB hex triplet via standard HSL→RGB conversion".
The standard conversion picks the channel pattern by the sector
`hue / 60`, with chroma `c`, secondary component
`x = c * (1 - |(h / 60) mod 2 - 1|)` and offset `m = l - c / 2`. -/
def colorizeSpec (name : String) : String :=
  let hue := sha1Nat (utf8Bytes (if name = "" then "Unknown" else name)) % 360
  let s : ℚ := 70 / 100
  let l : ℚ := 45 / 100
  let c : ℚ := (1 - |2 * l - 1|) * s
  let x : ℚ := c * (1 - |((hue % 120 : Nat) : ℚ) / 60 - 1|)
  let m : ℚ := l - c / 2
  let rgb : ℚ × ℚ × ℚ :=
    if hue / 60 = 0 then (c, x, 0)
    else if hue / 60 = 1 then (x, c, 0)
    else if hue / 60 = 2 then (0, c, x)
    else if hue / 60 = 3 then (0, x, c)
    else if hue / 60 = 4 then (x, 0, c)
    else (c, 0, x)
  "#" ++ hexByte (pyTrunc ((rgb.1 + m) * 255)).toNat ++
    hexByte (pyTrunc ((rgb.2.1 + m) * 255)).toNat ++
    hexByte (pyTrunc ((rgb.2.2 + m) * 255)).toNat

/-- Three-way lexicographic comparison of character lists by Unicode
code point: the order Python uses on `str` values (both when sorting
species names and when sorting artifact file names). -/
def lexChars : List Char → List Char → Ordering
  | [], [] => Ordering.eq
  | [], _ :: _ => Ordering.lt
  | _ :: _, [] => Ordering.gt
  | a :: as, b :: bs =>
      if a.toNat < b.toNat then Ordering.lt
      else if b.toNat < a.toNat then Ordering.gt
      else lexChars as bs

/-- Python `a < b` on strings. -/
def pyStrLt (a b : String) : Bool := lexChars a.data b.data == Ordering.lt

/-- Python `a <= b` on strings. -/
def pyStrLe (a b : String) : Bool := !(lexChars a.data b.data == Ordering.gt)

/-- The `species_to_color` table of `make_map` (source line 526): pair
every species with its color and sort by species name (Python `sorted`
with `key=lambda x: x[0]`, a stable ascending sort, which
`insertionSort` with the name's `≤` reproduces exactly). -/
def species_to_color (species_set : List String) : List (String × String) :=
  List.insertionSort (fun a b : String × String => pyStrLe a.1 b.1 = true)
    (species_set.map (fun sp => (sp, color_for_species sp)))

/-- `SPECIES_LAYER_THRESHOLD` (source line 52). -/
def SPECIES_LAYER_THRESHOLD : Nat := 200

/-- The two rendering topologies of `make_map` (source lines 529-574). -/
inductive LayerStrategy where
  | PER_SPECIES
  | COMBINED
deriving DecidableEq

/-- The layering decision of `make_map` (source lines 527-529):
`too_many = len(species_to_color) > SPECIES_LAYER_THRESHOLD`, with the
per-species branch taken `if not too_many`.  `n` is the number of
distinct species, `threshold` the configured threshold. -/
def select_strategy (n threshold : Nat) : LayerStrategy :=
  let too_many := n > threshold
  if too_many then LayerStrategy.COMBINED else LayerStrategy.PER_SPECIES

/-- One raw observation record, the dictionary shape consumed by the
aggregation loop of `make_map` (source lines 511-524).  Every field the
loop reads with `.get` is optional; coordinates are exact rationals
(grouping only ever compares them for equality). -/
structure Obs where
  lat : Option ℚ
  lng : Option ℚ
  comName : Option String
  locName : Option String
  obsDt : Option String
  howMany : Option ℤ
  subId : Option String
deriving DecidableEq

/-- Python `x or default` for an optional string: `None` and `""` are
both falsy and replaced by the default. -/
def orDefault (o : Option String) (default : String) : String :=
  match o with
  | none => default
  | some s => if s = "" then default else s

/-- The species name of a record: `s.get("comName") or "Unknown"`. -/
def spOf (r : Obs) : String := orDefault r.comName ("Unknown")

/-- The location name of a record:
`s.get("locName") or "Unknown location"`. -/
def locNameOf (r : Obs) : String := orDefault r.locName ("Unknown location")

/-- The grouping key `(slat, slon)` of a record, taken verbatim. -/
def keyOf (r : Obs) : Option ℚ × Option ℚ := (r.lat, r.lng)

/-- `s.get("howMany", "Unknown")` as rendered into the f-string. -/
def howManyStr (r : Obs) : String :=
  match r.howMany with
  | some n => toString n
  | none => "Unknown"

/-- `s.get("obsDt")` as rendered into the f-string (`None` prints as
the text `None`). -/
def obsDtStr (r : Obs) : String :=
  match r.obsDt with
  | some s => s
  | none => "None"

/-- The checklist URL (source line 519): built from `subId` only when it
is truthy, otherwise the empty string. -/
def checklistUrl (r : Obs) : String :=
  match r.subId with
  | some cid =>
      if cid = "" then "" else "https://ebird.org/checklist/" ++ cid
  | none => ""

/-- `entry_html` (source lines 520-522). -/
def entryHtml (r : Obs) : String :=
  let base := "<b>" ++ spOf r ++ "</b> (" ++ howManyStr r ++ ") on " ++
    obsDtStr r
  if checklistUrl r = "" then base
  else base ++ " [<a href=\x27" ++ checklistUrl r ++
    "\x27 target=\x27_blank\x27 rel=\x27noopener\x27>Checklist</a>]"

/-- One detail entry appended by the aggregation loop (source line 524):
`{"entry_html": entry_html, "loc_name": loc_name}`. -/
structure Entry where
  entry_html : String
  loc_name : String
deriving DecidableEq

/-- The detail entry a record contributes. -/
def entryOf (r : Obs) : Entry := ⟨entryHtml r, locNameOf r⟩

/-- The inner `defaultdict(list)` of `loc_species`: species name →
ordered detail entries, insertion-ordered. -/
abbrev SpMap := List (String × List Entry)

/-- `loc_species` itself: `(lat, lng)` key → species map,
insertion-ordered. -/
abbrev LocMap := List ((Option ℚ × Option ℚ) × SpMap)

/-- Append an entry to the list at a species key, creating the key at
the end if absent (`defaultdict(list)` + `.append`). -/
def appendAtSp (sm : SpMap) (sp : String) (e : Entry) : SpMap :=
  match sm with
  | [] => [(sp, [e])]
  | (s, es) :: rest =>
      if s = sp then (s, es ++ [e]) :: rest
      else (s, es) :: appendAtSp rest sp e

/-- Append an entry at `[key][species]`, creating missing keys at the
end (`defaultdict(lambda: defaultdict(list))`). -/
def addEntry (m : LocMap) (k : Option ℚ × Option ℚ) (sp : String)
    (e : Entry) : LocMap :=
  match m with
  | [] => [(k, [(sp, [e])])]
  | (k2, sm) :: rest =>
      if k2 = k then (k2, appendAtSp sm sp e) :: rest
      else (k2, sm) :: addEntry rest k sp e

/-- The aggregation loop of `make_map` (source lines 509-524): fold the
records into `loc_species`, appending one detail entry per record at
`[(lat, lng)][species]`. -/
def aggregate (records : List Obs) : LocMap :=
  records.foldl (fun m r => addEntry m (keyOf r) (spOf r) (entryOf r)) []

/-- Total number of detail entries in one species map. -/
def totalSp (sm : SpMap) : Nat := (sm.map (fun p => p.2.length)).sum

/-- Total number of detail entries across the whole structure. -/
def totalEntries (m : LocMap) : Nat := (m.map (fun p => totalSp p.2)).sum

/-- The entry list stored at a species key (first occurrence; `[]` when
absent). -/
def entriesAtSp (sm : SpMap) (sp : String) : List Entry :=
  match sm with
  | [] => []
  | (s, es) :: rest => if s = sp then es else entriesAtSp rest sp

/-- The entry list stored at `[key][species]` (`[]` when absent). -/
def entriesAt (m : LocMap) (k : Option ℚ × Option ℚ) (sp : String) :
    List Entry :=
  match m with
  | [] => []
  | (k2, sm) :: rest => if k2 = k then entriesAtSp sm sp else entriesAt rest k sp

/-- A fetch-cache key (source line 94):
`(round(lat, 6), round(lon, 6), int(radius_km), int(back_days))`. -/
def cache_key (lat lon radius_km back_days : ℚ) : ℚ × ℚ × ℤ × ℤ :=
  (pyRound6 lat, pyRound6 lon, pyTrunc radius_km, pyTrunc back_days)

/-- The module-level `_CACHE` dictionary (source line 92), made explicit
state: an association list from keys to raw record sequences. -/
abbrev Cache := List ((ℚ × ℚ × ℤ × ℤ) × List Obs)

/-- Dictionary lookup, `key in _CACHE` / `_CACHE[key]`. -/
def cacheLookup (c : Cache) (k : ℚ × ℚ × ℤ × ℤ) : Option (List Obs) :=
  match c with
  | [] => none
  | (k2, v) :: rest => if k2 = k then some v else cacheLookup rest k

/-- `get_data` (source lines 93-99), with the external collaborator
`fetch_notable` passed in explicitly (per the source's error handling it
returns `[]` on any failure and never raises) and the cache as explicit
state.  The returned `Nat` counts the external fetches this call
performed (0 on a hit, 1 on a miss). -/
def get_data (fetch_notable : ℚ → ℚ → ℚ → ℚ → List Obs) (c : Cache)
    (lat lon radius_km back_days : ℚ) : List Obs × Cache × Nat :=
  let key := cache_key lat lon radius_km back_days
  match cacheLookup c key with
  | some d => (d, c, 0)
  | none =>
      let data := fetch_notable lat lon radius_km back_days
      (data, (key, data) :: c, 1)

/-- `startswith` on character lists (structural, so that concrete
directory listings evaluate inside the kernel). -/
def startsWithChars : List Char → List Char → Bool
  | _, [] => true
  | [], _ :: _ => false
  | c :: cs, p :: ps => (c == p) && startsWithChars cs ps

/-- The artifact filter of `prune_archive` (source lines 449-450):
`f.startswith("ebird_radius_map_") and f.endswith(".html")`
(`endswith` is `startswith` of the reversals). -/
def isArtifactName (f : String) : Bool :=
  startsWithChars f.data ("ebird_radius_map_").data &&
    startsWithChars f.data.reverse (".html").data.reverse

/-- `prune_archive` (source lines 447-460), with the directory listing
made explicit as a list of file names.  The matching names are sorted in
descending lexical order (`files.sort(reverse=True)`), everything past
the first `keep` is removed.  Returns the removed names (the source
returns `len(to_remove)`) and the directory contents afterwards. -/
def prune_archive (dir : List String) (keep : Nat) :
    List String × List String :=
  let files := List.insertionSort (fun a b : String => pyStrLe b a = true)
    (dir.filter isArtifactName)
  let to_remove := files.drop keep
  (to_remove, dir.filter (fun f => !decide (f ∈ to_remove)))

/-- The fixed civil time zone of `compute_dt_et` (source line 213). -/
def TZ_ET : String := "America/New_York"

/-- The canonical instant `compute_dt_et` resolves: either a civil
datetime `year-month-day hour:00:00` in a named zone, or "now" in that
zone. -/
inductive Instant where
  | civil (y mo d h : ℤ) (tz : String)
  | nowIn (tz : String)
deriving DecidableEq

/-- Python whitespace stripped by `int(str)` (ASCII subset). -/
def isPySpace (c : Char) : Bool :=
  c = ' ' || c = '\t' || c = '\n' || c = '\r' || c = '\x0b' || c = '\x0c'

/-- Digit-run parser for Python `int(str)`: decimal digits with single
underscores allowed between digits. -/
def pyDigitsAux : List Char → Nat → Option Nat
  | [], acc => some acc
  | c :: cs, acc =>
      if c.isDigit then pyDigitsAux cs (acc * 10 + (c.toNat - 48))
      else if c = '_' then
        match cs with
        | d :: cs2 =>
            if d.isDigit then pyDigitsAux cs2 (acc * 10 + (d.toNat - 48))
            else none
        | [] => none
      else none

/-- A nonempty digit run (must start with a digit). -/
def pyDigitsVal (cs : List Char) : Option Nat :=
  match cs with
  | [] => none
  | c :: _ => if c.isDigit then pyDigitsAux cs 0 else none

/-- Python `s.split("-")` for the single-character separator, over the
character list. -/
def splitOnDash : List Char → List (List Char)
  | [] => [[]]
  | c :: cs =>
      let r := splitOnDash cs
      if c = '-' then [] :: r
      else
        match r with
        | [] => [[c]]
        | g :: gs => (c :: g) :: gs

/-- Python `int(str)` on ASCII input: strip whitespace, optional sign,
decimal digits (`None` models the raised `ValueError`).  Non-ASCII
digit alphabets accepted by CPython are out of scope; the strings this
program feeds in (`RUN_DATE_ET` components, `RUN_SLOT`) are ASCII. -/
def pyIntOfChars (cs0 : List Char) : Option ℤ :=
  let cs := ((cs0.dropWhile isPySpace).reverse.dropWhile isPySpace).reverse
  match cs with
  | '+' :: rest => (pyDigitsVal rest).map (fun n => (n : ℤ))
  | '-' :: rest => (pyDigitsVal rest).map (fun n => -(n : ℤ))
  | _ => (pyDigitsVal cs).map (fun n => (n : ℤ))

/-- Python `int(str)` on a string value (used for `int(run_slot)`). -/
def pyIntOfString (s : String) : Option ℤ := pyIntOfChars s.data

/-- `y, mo, d = map(int, run_date.split("-"))`: exactly three
`-`-separated components, each parsing as an integer (`None` models the
`ValueError` from unpacking or `int`). -/
def parseRunDate (s : String) : Option (ℤ × ℤ × ℤ) :=
  match splitOnDash s.data with
  | [a, b, c] =>
      match pyIntOfChars a, pyIntOfChars b, pyIntOfChars c with
      | some y, some mo, some d => some (y, mo, d)
      | _, _, _ => none
  | _ => none

/-- Gregorian leap year, as `datetime` validates dates. -/
def isLeapYear (y : ℤ) : Bool :=
  y % 4 = 0 && (y % 100 ≠ 0 || y % 400 = 0)

/-- Days in a month, as `datetime` validates dates. -/
def daysInMonth (y mo : ℤ) : ℤ :=
  if mo = 2 then (if isLeapYear y then 29 else 28)
  else if mo = 4 ∨ mo = 6 ∨ mo = 9 ∨ mo = 11 then 30
  else 31

/-- The range check `datetime(y, mo, d, ...)` performs (its `ValueError`
is the remaining failure mode of the override path; the hour is always
12 or 21, which is in range). -/
def validDate (y mo d : ℤ) : Bool :=
  1 ≤ y && y ≤ 9999 && 1 ≤ mo && mo ≤ 12 && 1 ≤ d && d ≤ daysInMonth y mo

/-- `compute_dt_et` (source lines 212-227), restricted to the canonical
instant it resolves (the two derived strings are formattings of the same
`dt`).  The two arguments are `os.getenv("RUN_DATE_ET", "")` and
`os.getenv("RUN_SLOT", "")`; an unset variable is the empty string.  Any
exception in the override branch (date unpacking, `int`, `datetime`
range check) falls back to now. -/
def compute_dt_et (run_date run_slot : String) : Instant :=
  if run_date ≠ "" ∧ (run_slot = "12" ∨ run_slot = "21") then
    match parseRunDate run_date, pyIntOfString run_slot with
    | some (y, mo, d), some h =>
        if validDate y mo d then Instant.civil y mo d h TZ_ET
        else Instant.nowIn TZ_ET
    | _, _ => Instant.nowIn TZ_ET
  else Instant.nowIn TZ_ET

/-! ### Aggregation lemmas -/

theorem totalSp_appendAtSp (sm : SpMap) (sp : String) (e : Entry) :
    totalSp (appendAtSp sm sp e) = totalSp sm + 1 := by
  induction sm with
  | nil => simp [appendAtSp, totalSp]
  | cons p rest ih =>
      obtain ⟨s, es⟩ := p
      by_cases h : s = sp <;> simp [appendAtSp, h, totalSp] at ih ⊢ <;> omega

theorem totalEntries_addEntry (m : LocMap) (k : Option ℚ × Option ℚ)
    (sp : String) (e : Entry) :
    totalEntries (addEntry m k sp e) = totalEntries m + 1 := by
  induction m with
  | nil => simp [addEntry, totalEntries, totalSp]
  | cons p rest ih =>
      obtain ⟨k2, sm⟩ := p
      by_cases h : k2 = k <;>
        simp [addEntry, h, totalEntries, totalSp_appendAtSp] at ih ⊢ <;> omega

theorem aggregate_append (rs : List Obs) (r : Obs) :
    aggregate (rs ++ [r]) =
      addEntry (aggregate rs) (keyOf r) (spOf r) (entryOf r) := by
  simp [aggregate, List.foldl_append]

theorem totalEntries_foldl (rs : List Obs) (m : LocMap) :
    totalEntries
        (rs.foldl (fun m r => addEntry m (keyOf r) (spOf r) (entryOf r)) m) =
      totalEntries m + rs.length := by
  induction rs generalizing m with
  | nil => simp
  | cons r rest ih => simp [ih, totalEntries_addEntry]; omega

theorem entriesAtSp_appendAtSp (sm : SpMap) (sp : String) (e : Entry) :
    entriesAtSp (appendAtSp sm sp e) sp = entriesAtSp sm sp ++ [e] := by
  induction sm with
  | nil => simp [appendAtSp, entriesAtSp]
  | cons p rest ih =>
      obtain ⟨s, es⟩ := p
      by_cases h : s = sp <;> simp [appendAtSp, h, entriesAtSp, ih]

theorem entriesAt_addEntry (m : LocMap) (k : Option ℚ × Option ℚ)
    (sp : String) (e : Entry) :
    entriesAt (addEntry m k sp e) k sp = entriesAt m k sp ++ [e] := by
  induction m with
  | nil => simp [addEntry, entriesAt, entriesAtSp]
  | cons p rest ih =>
      obtain ⟨k2, sm⟩ := p
      by_cases h : k2 = k <;>
        simp [addEntry, h, entriesAt, entriesAtSp_appendAtSp, ih]

/-- C1: for every non-empty input record sequence, aggregation never
drops a record: the total number of detail entries summed over all
location keys and species equals the number of input records, and each
record contributes exactly one entry, appended at
`[(lat, lng)][species]`. -/
theorem aggregate_never_drops (records : List Obs) (hne : records ≠ []) :
    totalEntries (aggregate records) = records.length
    ∧ ∀ (pre : List Obs) (r : Obs),
        entriesAt (aggregate (pre ++ [r])) (keyOf r) (spOf r) =
          entriesAt (aggregate pre) (keyOf r) (spOf r) ++ [entryOf r] := by
  refine ⟨?_, ?_⟩
  · simpa [aggregate, totalEntries, totalSp] using
      totalEntries_foldl records []
  · intro pre r
    rw [aggregate_append, entriesAt_addEntry]

/-- Witness for C1 at a concrete two-record feed. -/
theorem aggregate_never_drops_witness :
    ([⟨some 42, some (-71), some ("Blue Jay"), some ("Park"), none, some 2,
        none⟩,
      ⟨some 42, some (-71), some ("Blue Jay"), some ("Park"), none, none,
        none⟩] : List Obs) ≠ []
    ∧ totalEntries (aggregate
        [⟨some 42, some (-71), some ("Blue Jay"), some ("Park"), none, some 2,
           none⟩,
         ⟨some 42, some (-71), some ("Blue Jay"), some ("Park"), none, none,
           none⟩]) = 2 :=
  ⟨by simp,
   (aggregate_never_drops _ (by simp)).1⟩

/-- C10: a record whose latitude or longitude is absent is still
aggregated (one appended entry, no skip), under the location key whose
missing components are `none`; in particular records missing both
coordinates share the key `(none, none)`. -/
theorem aggregate_missing_coordinate (rs : List Obs) (r : Obs)
    (hmiss : r.lat = none ∨ r.lng = none) :
    totalEntries (aggregate (rs ++ [r])) = totalEntries (aggregate rs) + 1
    ∧ entriesAt (aggregate (rs ++ [r])) (r.lat, r.lng) (spOf r) =
        entriesAt (aggregate rs) (r.lat, r.lng) (spOf r) ++ [entryOf r]
    ∧ (r.lat = none → r.lng = none → keyOf r = (none, none)) := by
  refine ⟨?_, ?_, ?_⟩
  · rw [aggregate_append, totalEntries_addEntry]
  · have : keyOf r = (r.lat, r.lng) := rfl
    rw [aggregate_append, ← this, entriesAt_addEntry]
  · intro h1 h2
    simp [keyOf, h1, h2]

/-- Witness for C10: a record with no coordinates at all still lands in
the structure, at key `(none, none)`. -/
theorem aggregate_missing_coordinate_witness :
    (⟨none, none, some ("Blue Jay"), none, none, none, none⟩ : Obs).lat = none
    ∧ totalEntries (aggregate
        ([⟨some 1, some 2, some ("Robin"), none, none, none, none⟩] ++
          [⟨none, none, some ("Blue Jay"), none, none, none, none⟩])) =
      totalEntries (aggregate
        [⟨some 1, some 2, some ("Robin"), none, none, none, none⟩]) + 1 :=
  ⟨rfl,
   (aggregate_missing_coordinate
      [⟨some 1, some 2, some ("Robin"), none, none, none, none⟩]
      ⟨none, none, some ("Blue Jay"), none, none, none, none⟩
      (Or.inl rfl)).1⟩

/-! ### Layer strategy -/

/-- C2: the layer strategy is `COMBINED` exactly when the distinct
species count exceeds the threshold; at the boundary `n = t` it is
`PER_SPECIES`; with 201 species and the configured threshold 200 it is
`COMBINED`. -/
theorem select_strategy_spec (n t : Nat) :
    (select_strategy n t = LayerStrategy.COMBINED ↔ n > t)
    ∧ select_strategy t t = LayerStrategy.PER_SPECIES
    ∧ select_strategy 201 SPECIES_LAYER_THRESHOLD = LayerStrategy.COMBINED := by
  refine ⟨?_, ?_, by decide⟩
  · unfold select_strategy
    by_cases h : n > t <;> simp [h]
  · unfold select_strategy
    simp

/-! ### Color purity -/

/-- C5: a species' color is a pure function of its name alone: any two
entries for the same name, in tables built from any two species sets (in
any order, with any other species present), carry the bit-identical hex
color, and that color is `color_for_species` of the name; sorting the
table changes no color value. -/
theorem color_pure_of_name (l1 l2 : List String) (sp c1 c2 : String)
    (h1 : (sp, c1) ∈ species_to_color l1)
    (h2 : (sp, c2) ∈ species_to_color l2) :
    c1 = c2 ∧ c1 = color_for_species sp := by
  have m1 : (sp, c1) ∈ l1.map (fun sp => (sp, color_for_species sp)) :=
    (List.perm_insertionSort _ _).mem_iff.mp h1
  have m2 : (sp, c2) ∈ l2.map (fun sp => (sp, color_for_species sp)) :=
    (List.perm_insertionSort _ _).mem_iff.mp h2
  obtain ⟨a1, _, heq1⟩ := List.mem_map.mp m1
  obtain ⟨a2, _, heq2⟩ := List.mem_map.mp m2
  injection heq1 with ha1 hc1
  injection heq2 with ha2 hc2
  subst ha1
  subst ha2
  refine ⟨?_, ?_⟩
  · rw [← hc1, ← hc2]
  · rw [← hc1]

/-- Witness for C5 on two different species sets containing the same
name. -/
theorem color_pure_of_name_witness :
    ("Blue Jay", color_for_species ("Blue Jay")) ∈
        species_to_color ["Blue Jay"]
    ∧ ("Blue Jay", color_for_species ("Blue Jay")) ∈
        species_to_color ["Robin", "Blue Jay"]
    ∧ color_for_species ("Blue Jay") = color_for_species ("Blue Jay") := by
  have mem1 : ("Blue Jay", color_for_species ("Blue Jay")) ∈
      species_to_color ["Blue Jay"] := by
    simp [species_to_color]
  have mem2 : ("Blue Jay", color_for_species ("Blue Jay")) ∈
      species_to_color ["Robin", "Blue Jay"] := by
    have hnle : pyStrLe ("Robin") ("Blue Jay") = false := by decide
    simp [species_to_color, hnle]
  exact ⟨mem1, mem2,
    (color_pure_of_name ["Blue Jay"] ["Robin", "Blue Jay"] ("Blue Jay") _ _
      mem1 mem2).1⟩

/-! ### Color refinement -/

set_option maxRecDepth 100000 in
/-- SHA-1 embedding checked against the standard reference digests,
including multi-block messages (43, 64 bytes) whose padding exercises
the big-endian length field, and the hue of a 38-byte species name. -/
theorem sha1Nat_matches_reference_vectors :
    sha1Nat (utf8Bytes ("abc")) =
      968236873715988614170569073515315707566766479517
    ∧ sha1Nat [] = 1245845410931227995499360226027473197403882391305
    ∧ sha1Nat (utf8Bytes ("The quick brown fox jumps over the lazy dog")) =
      273069992013452546326057769888623105462687230738
    ∧ sha1Nat (List.replicate 64 97) =
      3405960492237904320641188244594482061350036557
    ∧ sha1Nat (utf8Bytes ("Mallard x American Black Duck (hybrid)")) % 360 =
      313 :=
  ⟨by decide, by decide, by decide, by decide, by decide⟩

theorem floor_div_onetwenty (h : ℕ) : ⌊(h : ℚ) / 120⌋ = (h / 120 : ℕ) := by
  rw [Int.floor_eq_iff]
  constructor
  · rw [le_div_iff₀ (by norm_num)]
    exact_mod_cast Nat.div_mul_le_self h 120
  · rw [div_lt_iff₀ (by norm_num)]
    exact_mod_cast (by omega : h < (h / 120 + 1) * 120)

theorem qmod_div_sixty (h : ℕ) :
    qmod ((h : ℚ) / 60) 2 = ((h % 120 : ℕ) : ℚ) / 60 := by
  unfold qmod
  have h1 : (h : ℚ) / 60 / 2 = (h : ℚ) / 120 := by ring
  rw [h1, floor_div_onetwenty, Int.cast_natCast]
  have hmod : (120 : ℚ) * ((h / 120 : ℕ) : ℚ) + ((h % 120 : ℕ) : ℚ) =
      (h : ℚ) := by
    exact_mod_cast Nat.div_add_mod h 120
  field_simp
  linarith

/-- C4: `color_for_species` equals the spec's reference colorizer: hash
the (defaulted) name, reduce the digest to a hue in `[0, 360)` by
modulo, and convert hue with fixed saturation 0.70 and lightness 0.45 to
an RGB hex triplet by the standard HSL→RGB conversion. -/
theorem color_for_species_refines_spec (name : String) :
    color_for_species name = colorizeSpec name := by
  simp only [color_for_species, colorizeSpec, hsl_to_rgb]
  generalize sha1Nat (utf8Bytes (if name = "" then "Unknown" else name)) % 360
    = h
  simp only [qmod_div_sixty]
  split_ifs <;> first | rfl | omega


/-! ### Fetch cache -/

theorem cacheLookup_cons_self (c : Cache) (k : ℚ × ℚ × ℤ × ℤ)
    (d : List Obs) : cacheLookup ((k, d) :: c) k = some d := by
  simp [cacheLookup]

theorem cacheLookup_after_get_data (fetch : ℚ → ℚ → ℚ → ℚ → List Obs)
    (c : Cache) (lat lon radius_km back_days : ℚ) :
    cacheLookup (get_data fetch c lat lon radius_km back_days).2.1
        (cache_key lat lon radius_km back_days) =
      some (get_data fetch c lat lon radius_km back_days).1 := by
  unfold get_data
  cases hc : cacheLookup c (cache_key lat lon radius_km back_days) with
  | none => simp [hc, cacheLookup_cons_self]
  | some d => simp [hc]

/-- C7: a cache hit returns the stored sequence with no external fetch;
a miss invokes the fetch exactly once and stores its result (whatever it
is, including the empty sequence a failed fetch yields) under the key,
so an immediately repeated call with the same arguments performs no
second external call and returns the first call's data. -/
theorem get_data_cache_spec (fetch : ℚ → ℚ → ℚ → ℚ → List Obs) (c : Cache)
    (lat lon radius_km back_days : ℚ) :
    (∀ d, cacheLookup c (cache_key lat lon radius_km back_days) = some d →
        get_data fetch c lat lon radius_km back_days = (d, c, 0))
    ∧ (cacheLookup c (cache_key lat lon radius_km back_days) = none →
        get_data fetch c lat lon radius_km back_days =
          (fetch lat lon radius_km back_days,
           (cache_key lat lon radius_km back_days,
            fetch lat lon radius_km back_days) :: c, 1))
    ∧ get_data fetch (get_data fetch c lat lon radius_km back_days).2.1
          lat lon radius_km back_days =
        ((get_data fetch c lat lon radius_km back_days).1,
         (get_data fetch c lat lon radius_km back_days).2.1, 0) := by
  refine ⟨?_, ?_, ?_⟩
  · intro d hd
    unfold get_data
    simp [hd]
  · intro hn
    unfold get_data
    simp [hn]
  · have hafter := cacheLookup_after_get_data fetch c lat lon radius_km
      back_days
    set g := get_data fetch c lat lon radius_km back_days with hg
    conv => lhs; unfold get_data
    simp [hafter]

/-- Witness for C7: a failing fetch (empty result) is cached and the
empty sequence is returned. -/
theorem get_data_cache_spec_witness :
    cacheLookup [] (cache_key 42 (-71) 10 2) = none
    ∧ get_data (fun _ _ _ _ => []) [] 42 (-71) 10 2 =
        ([], [(cache_key 42 (-71) 10 2, [])], 1) :=
  ⟨rfl,
   (get_data_cache_spec (fun _ _ _ _ => []) [] 42 (-71) 10 2).2.1 rfl⟩

/-- C6 counterexample: the latitudes 0.1234560 and 0.1234569 agree
through the sixth decimal place (equal truncations to 6 decimals, and
within 1/1000000 of each other) yet round to different 6-decimal values,
so with equal radius and lookback they produce different cache keys, and
two successive calls perform two external fetches rather than one. -/
theorem floor_eq_of_bounds (q : ℚ) (z : ℤ) (h1 : (z : ℚ) ≤ q)
    (h2 : q < z + 1) : ⌊q⌋ = z := by
  rw [Int.floor_eq_iff]
  exact ⟨h1, by exact_mod_cast h2⟩

theorem pyRound6_a : pyRound6 (123456 / 1000000 : ℚ) = 123456 / 1000000 := by
  unfold pyRound6 roundHalfEven
  have harg : (123456 / 1000000 : ℚ) * 1000000 = 123456 := by norm_num
  rw [harg, floor_eq_of_bounds (123456 : ℚ) 123456 (by norm_num) (by norm_num)]
  norm_num

theorem pyRound6_b : pyRound6 (1234569 / 10000000 : ℚ) = 123457 / 1000000 := by
  unfold pyRound6 roundHalfEven
  have harg : (1234569 / 10000000 : ℚ) * 1000000 = 1234569 / 10 := by norm_num
  rw [harg,
    floor_eq_of_bounds (1234569 / 10 : ℚ) 123456 (by norm_num) (by norm_num)]
  norm_num

theorem pyRound6_c : pyRound6 (1234561 / 10000000 : ℚ) = 123456 / 1000000 := by
  unfold pyRound6 roundHalfEven
  have harg : (1234561 / 10000000 : ℚ) * 1000000 = 1234561 / 10 := by norm_num
  rw [harg,
    floor_eq_of_bounds (1234561 / 10 : ℚ) 123456 (by norm_num) (by norm_num)]
  norm_num

theorem cache_key_sixth_decimal_counterexample :
    ⌊(123456 / 1000000 : ℚ) * 1000000⌋ =
        ⌊(1234569 / 10000000 : ℚ) * 1000000⌋
    ∧ |(123456 / 1000000 : ℚ) - 1234569 / 10000000| < 1 / 1000000
    ∧ (123456 / 1000000 : ℚ) ≠ 1234569 / 10000000
    ∧ cache_key (123456 / 1000000) 0 5 2 ≠ cache_key (1234569 / 10000000) 0 5 2
    ∧ (get_data (fun _ _ _ _ => [])
         (get_data (fun _ _ _ _ => []) [] (123456 / 1000000) 0 5 2).2.1
         (1234569 / 10000000) 0 5 2).2.2 = 1 := by
  have hf1 : ⌊(123456 / 1000000 : ℚ) * 1000000⌋ = 123456 := by
    have harg : (123456 / 1000000 : ℚ) * 1000000 = 123456 := by norm_num
    rw [harg]
    exact floor_eq_of_bounds _ 123456 (by norm_num) (by norm_num)
  have hf2 : ⌊(1234569 / 10000000 : ℚ) * 1000000⌋ = 123456 := by
    have harg : (1234569 / 10000000 : ℚ) * 1000000 = 1234569 / 10 := by
      norm_num
    rw [harg]
    exact floor_eq_of_bounds _ 123456 (by norm_num) (by norm_num)
  have hkne : cache_key (123456 / 1000000) 0 5 2 ≠
      cache_key (1234569 / 10000000) 0 5 2 := by
    simp only [cache_key, pyRound6_a, pyRound6_b]
    intro h
    have hfst := congrArg (fun p => p.1) h
    norm_num at hfst
  refine ⟨hf1.trans hf2.symm, ?_, by norm_num, hkne, ?_⟩
  · rw [abs_sub_lt_iff]
    constructor <;> norm_num
  · have h1 : get_data (fun _ _ _ _ => ([] : List Obs)) []
        (123456 / 1000000) 0 5 2 =
        ([], [(cache_key (123456 / 1000000) 0 5 2, [])], 1) := by
      simp [get_data, cacheLookup]
    rw [h1]
    have h2 : cacheLookup [(cache_key (123456 / 1000000) 0 5 2, [])]
        (cache_key (1234569 / 10000000) 0 5 2) = none := by
      simp only [cacheLookup]
      rw [if_neg hkne]
    simp [get_data, h2]

/-- C6 (amended): two calls whose latitudes and longitudes *round* to
the same 6-decimal value and whose radius and lookback coerce to the
same integers produce the same cache key and collapse to one external
fetch (the second call fetches nothing). -/
theorem cache_key_rounding_collapse
    (lat1 lon1 r1 b1 lat2 lon2 r2 b2 : ℚ)
    (fetch : ℚ → ℚ → ℚ → ℚ → List Obs) (c : Cache)
    (hlat : pyRound6 lat1 = pyRound6 lat2)
    (hlon : pyRound6 lon1 = pyRound6 lon2)
    (hr : pyTrunc r1 = pyTrunc r2) (hb : pyTrunc b1 = pyTrunc b2) :
    cache_key lat1 lon1 r1 b1 = cache_key lat2 lon2 r2 b2
    ∧ (get_data fetch (get_data fetch c lat1 lon1 r1 b1).2.1
         lat2 lon2 r2 b2).2.2 = 0 := by
  have hk : cache_key lat1 lon1 r1 b1 = cache_key lat2 lon2 r2 b2 := by
    simp [cache_key, hlat, hlon, hr, hb]
  refine ⟨hk, ?_⟩
  have hafter := cacheLookup_after_get_data fetch c lat1 lon1 r1 b1
  set g := get_data fetch c lat1 lon1 r1 b1 with hg
  conv => lhs; unfold get_data
  rw [← hk]
  simp [hafter]

/-- Witness for C6 (amended): 0.1234560 and 0.1234561 round to the same
6-decimal latitude, radius 5 (Python's `5` and `5.0` denote this same
number, and `int` coerces both to the integer 5), so the second call
hits the cache. -/
theorem cache_key_rounding_collapse_witness :
    pyRound6 (123456 / 1000000) = pyRound6 (1234561 / 10000000)
    ∧ (get_data (fun _ _ _ _ => [])
         (get_data (fun _ _ _ _ => []) [] (123456 / 1000000) 0 5 2).2.1
         (1234561 / 10000000) 0 5 2).2.2 = 0 := by
  have hlat : pyRound6 (123456 / 1000000 : ℚ) =
      pyRound6 (1234561 / 10000000 : ℚ) := by
    rw [pyRound6_a, pyRound6_c]
  exact ⟨hlat,
    (cache_key_rounding_collapse (123456 / 1000000) 0 5 2
      (1234561 / 10000000) 0 5 2 (fun _ _ _ _ => []) []
      hlat rfl rfl rfl).2⟩

/-! ### Run-time resolver -/

/-- C9: the resolver returns the deterministically constructed civil
instant (override date, at the wall-clock hour the slot names, in the
fixed Eastern time zone) exactly when both overrides are present, the
slot is recognized, the date parses, and the date is valid; in every
other case — absent overrides, unrecognized slot, parse failure,
invalid date — it falls back to "now" in that same time zone. -/
theorem compute_dt_et_spec (run_date run_slot : String) :
    (∀ y mo d, run_date ≠ "" → (run_slot = "12" ∨ run_slot = "21") →
        parseRunDate run_date = some (y, mo, d) → validDate y mo d = true →
        compute_dt_et run_date run_slot =
          Instant.civil y mo d (if run_slot = "12" then 12 else 21) TZ_ET)
    ∧ (run_date = "" ∨ (run_slot ≠ "12" ∧ run_slot ≠ "21") →
        compute_dt_et run_date run_slot = Instant.nowIn TZ_ET)
    ∧ (parseRunDate run_date = none →
        compute_dt_et run_date run_slot = Instant.nowIn TZ_ET)
    ∧ (∀ y mo d, parseRunDate run_date = some (y, mo, d) →
        validDate y mo d = false →
        compute_dt_et run_date run_slot = Instant.nowIn TZ_ET) := by
  refine ⟨?_, ?_, ?_, ?_⟩
  · intro y mo d hne hslot hparse hvalid
    unfold compute_dt_et
    rw [if_pos ⟨hne, hslot⟩, hparse]
    rcases hslot with h12 | h21
    · subst h12
      have : pyIntOfString ("12") = some 12 := by decide
      rw [this]
      simp [hvalid]
    · subst h21
      have h2112 : ("21" : String) = "12" ↔ False := by
        constructor
        · intro h
          exact absurd h (by decide)
        · exact False.elim
      have : pyIntOfString ("21") = some 21 := by decide
      rw [this]
      simp [hvalid, h2112]
  · intro hcases
    unfold compute_dt_et
    rw [if_neg]
    rintro ⟨hne, hslot⟩
    rcases hcases with h | ⟨h1, h2⟩
    · exact hne h
    · rcases hslot with h | h
      · exact h1 h
      · exact h2 h
  · intro hn
    unfold compute_dt_et
    split_ifs with hcond
    · rw [hn]
    · rfl
  · intro y mo d hparse hvalid
    unfold compute_dt_et
    split_ifs with hcond
    · rw [hparse]
      cases hslot : pyIntOfString run_slot with
      | none => rfl
      | some h => simp [hvalid]
    · rfl

/-- Witness for C9: a well-formed override pair resolves to the civil
instant; a malformed date and an unrecognized slot both fall back to
now. -/
theorem compute_dt_et_spec_witness :
    compute_dt_et ("2025-10-12") ("21") =
        Instant.civil 2025 10 12 21 TZ_ET
    ∧ compute_dt_et ("garbage") ("12") = Instant.nowIn TZ_ET
    ∧ compute_dt_et ("2025-10-12") ("7") = Instant.nowIn TZ_ET
    ∧ compute_dt_et ("2025-02-30") ("12") = Instant.nowIn TZ_ET := by
  refine ⟨?_, ?_, ?_, ?_⟩
  · have := (compute_dt_et_spec ("2025-10-12") ("21")).1 2025 10 12
      (by decide) (Or.inr rfl) (by decide) (by decide)
    simpa using this
  · exact (compute_dt_et_spec ("garbage") ("12")).2.2.1 (by decide)
  · exact (compute_dt_et_spec ("2025-10-12") ("7")).2.1
      (Or.inr (by decide))
  · exact (compute_dt_et_spec ("2025-02-30") ("12")).2.2.2 2025 2 30
      (by decide) (by decide)

/-! ### Archive retention -/

theorem char_eq_of_toNat_eq {a b : Char} (h : a.toNat = b.toNat) : a = b := by
  simpa [Char.ext_iff, UInt32.ext_iff] using h

theorem lexChars_swap : ∀ as bs : List Char,
    lexChars bs as = (lexChars as bs).swap := by
  intro as
  induction as with
  | nil => intro bs; cases bs <;> rfl
  | cons a as ih =>
      intro bs
      cases bs with
      | nil => rfl
      | cons b bs =>
          rcases Nat.lt_trichotomy a.toNat b.toNat with h | h | h
          · simp [lexChars, h, Nat.lt_asymm h, Ordering.swap]
          · have h1 : ¬ a.toNat < b.toNat := by omega
            have h2 : ¬ b.toNat < a.toNat := by omega
            simp [lexChars, h1, h2, ih bs]
          · simp [lexChars, h, Nat.lt_asymm h, Ordering.swap]

theorem lexChars_eq_iff : ∀ as bs : List Char,
    lexChars as bs = Ordering.eq ↔ as = bs := by
  intro as
  induction as with
  | nil => intro bs; cases bs <;> simp [lexChars]
  | cons a as ih =>
      intro bs
      cases bs with
      | nil => simp [lexChars]
      | cons b bs =>
          rcases Nat.lt_trichotomy a.toNat b.toNat with h | h | h
          · simp only [lexChars, if_pos h]
            constructor
            · intro hc; exact absurd hc (by decide)
            · intro heq
              injection heq with h1 _
              subst h1
              omega
          · have e : a = b := char_eq_of_toNat_eq h
            subst e
            simp [lexChars, ih bs]
          · have h1 : ¬ a.toNat < b.toNat := by omega
            simp only [lexChars, if_neg h1, if_pos h]
            constructor
            · intro hc; exact absurd hc (by decide)
            · intro heq
              injection heq with h2 _
              subst h2
              omega

theorem lexChars_lt_trans : ∀ as bs cs : List Char,
    lexChars as bs = Ordering.lt → lexChars bs cs = Ordering.lt →
    lexChars as cs = Ordering.lt := by
  intro as
  induction as with
  | nil =>
      intro bs cs h1 h2
      cases cs with
      | nil =>
          cases bs with
          | nil => exact h2
          | cons b bs => simp [lexChars] at h2
      | cons c cs => simp [lexChars]
  | cons a as ih =>
      intro bs cs h1 h2
      cases bs with
      | nil => simp [lexChars] at h1
      | cons b bs =>
          cases cs with
          | nil => simp [lexChars] at h2
          | cons c cs =>
              simp only [lexChars] at h1 h2 ⊢
              by_cases hab : a.toNat < b.toNat
              · by_cases hcb : c.toNat < b.toNat
                · by_cases hbc : b.toNat < c.toNat
                  · omega
                  · rw [if_neg hbc, if_pos hcb] at h2
                    exact absurd h2 (by decide)
                · have : a.toNat < c.toNat := by omega
                  simp [this]
              · by_cases hba : b.toNat < a.toNat
                · rw [if_neg hab, if_pos hba] at h1
                  exact absurd h1 (by decide)
                · rw [if_neg hab, if_neg hba] at h1
                  by_cases hbc : b.toNat < c.toNat
                  · have : a.toNat < c.toNat := by omega
                    simp [this]
                  · by_cases hcb : c.toNat < b.toNat
                    · rw [if_neg hbc, if_pos hcb] at h2
                      exact absurd h2 (by decide)
                    · rw [if_neg hbc, if_neg hcb] at h2
                      have hac1 : ¬ a.toNat < c.toNat := by omega
                      have hac2 : ¬ c.toNat < a.toNat := by omega
                      simp [hac1, hac2, ih bs cs h1 h2]

theorem string_eq_of_data_eq {a b : String} (h : a.data = b.data) : a = b := by
  cases a
  cases b
  exact congrArg String.mk h

theorem pyStrLe_total (a b : String) :
    pyStrLe a b = true ∨ pyStrLe b a = true := by
  unfold pyStrLe
  cases hc : lexChars a.data b.data with
  | gt =>
      right
      rw [lexChars_swap a.data b.data, hc]
      rfl
  | lt => left; rfl
  | eq => left; rfl

theorem pyStrLe_trans {a b c : String} (h1 : pyStrLe a b = true)
    (h2 : pyStrLe b c = true) : pyStrLe a c = true := by
  unfold pyStrLe at h1 h2 ⊢
  have hab : lexChars a.data b.data ≠ Ordering.gt := by
    intro h; rw [h] at h1; exact absurd h1 (by decide)
  have hbc : lexChars b.data c.data ≠ Ordering.gt := by
    intro h; rw [h] at h2; exact absurd h2 (by decide)
  have hac : lexChars a.data c.data ≠ Ordering.gt := by
    intro hgt
    cases hc1 : lexChars a.data b.data with
    | gt => exact hab hc1
    | eq =>
        have hd : a.data = b.data := (lexChars_eq_iff _ _).mp hc1
        rw [hd] at hgt
        exact hbc hgt
    | lt =>
        cases hc2 : lexChars b.data c.data with
        | gt => exact hbc hc2
        | eq =>
            have hd : b.data = c.data := (lexChars_eq_iff _ _).mp hc2
            rw [← hd] at hgt
            rw [hgt] at hc1
            exact absurd hc1 (by decide)
        | lt =>
            have := lexChars_lt_trans _ _ _ hc1 hc2
            rw [this] at hgt
            exact absurd hgt (by decide)
  cases hx : lexChars a.data c.data with
  | gt => exact absurd hx hac
  | lt => rfl
  | eq => rfl

theorem pyStrLt_irrefl (a : String) : pyStrLt a a = false := by
  unfold pyStrLt
  rw [(lexChars_eq_iff a.data a.data).mpr rfl]
  rfl

theorem pyStrLt_asymm {a b : String} (h : pyStrLt a b = true) :
    pyStrLt b a = false := by
  unfold pyStrLt at h ⊢
  have hlt : lexChars a.data b.data = Ordering.lt := by
    cases hc : lexChars a.data b.data
    · rfl
    · rw [hc] at h; exact absurd h (by decide)
    · rw [hc] at h; exact absurd h (by decide)
  rw [lexChars_swap a.data b.data, hlt]
  rfl

theorem pyStrLt_of_le_of_ne {a b : String} (h : pyStrLe a b = true)
    (hne : a ≠ b) : pyStrLt a b = true := by
  unfold pyStrLe at h
  unfold pyStrLt
  cases hc : lexChars a.data b.data with
  | lt => rfl
  | eq =>
      exact absurd (string_eq_of_data_eq ((lexChars_eq_iff _ _).mp hc)) hne
  | gt => rw [hc] at h; exact absurd h (by decide)

theorem mem_drop_iff_countP {l : List String}
    (hpw : l.Pairwise (fun a b => pyStrLt b a = true)) (k : Nat) (f : String) :
    f ∈ l.drop k ↔ f ∈ l ∧ k ≤ l.countP (fun g => pyStrLt f g) := by
  induction l generalizing k with
  | nil => simp
  | cons a t ih =>
      obtain ⟨ha, ht⟩ := List.pairwise_cons.mp hpw
      cases k with
      | zero => simp
      | succ k =>
          rw [List.drop_succ_cons, ih ht k, List.countP_cons]
          by_cases hf : f ∈ t
          · have hfa : pyStrLt f a = true := ha f hf
            simp only [hfa, if_pos]
            constructor
            · rintro ⟨_, hk⟩
              exact ⟨List.mem_cons_of_mem a hf, by omega⟩
            · rintro ⟨_, hk⟩
              exact ⟨hf, by omega⟩
          · by_cases hfa : f = a
            · subst hfa
              have hcp : t.countP (fun g => pyStrLt f g) = 0 := by
                rw [List.countP_eq_zero]
                intro x hx
                have := pyStrLt_asymm (ha x hx)
                simp [this]
              simp [hf, hcp, pyStrLt_irrefl]
            · simp [hf, hfa]

theorem mem_after_prune (dir : List String) (keep : Nat) (f : String) :
    f ∈ (prune_archive dir keep).2 ↔
      f ∈ dir ∧ f ∉ (prune_archive dir keep).1 := by
  simp [prune_archive, List.mem_filter]

/-- C3: pruning removes exactly the artifact-named files that are not
among the `keep` greatest in descending lexical name order (a file is
removed iff it is an artifact and at least `keep` artifacts sort
strictly above it), leaving exactly `min keep (number of artifacts)`
timestamped artifacts; non-artifact files — in particular the
`latest.html` alias, which never matches the artifact pattern — are
never deleted. -/
theorem prune_archive_retention (dir : List String) (keep : Nat)
    (hnd : dir.Nodup) :
    (∀ f, f ∈ (prune_archive dir keep).1 ↔
        f ∈ dir ∧ isArtifactName f = true ∧
          keep ≤ ((dir.filter isArtifactName).filter
            (fun g => pyStrLt f g)).length)
    ∧ ((prune_archive dir keep).2.filter isArtifactName).length =
        min keep (dir.filter isArtifactName).length
    ∧ (∀ f, f ∈ dir → isArtifactName f = false →
        f ∈ (prune_archive dir keep).2)
    ∧ isArtifactName ("latest.html") = false := by
  have hperm : (List.insertionSort (fun a b : String => pyStrLe b a = true)
      (dir.filter isArtifactName)).Perm (dir.filter isArtifactName) :=
    List.perm_insertionSort _ _
  set A := dir.filter isArtifactName with hA
  set S := List.insertionSort (fun a b : String => pyStrLe b a = true) A
    with hS
  haveI : IsTotal String (fun a b => pyStrLe b a = true) :=
    ⟨fun a b => pyStrLe_total b a⟩
  haveI : IsTrans String (fun a b => pyStrLe b a = true) :=
    ⟨fun _ _ _ h1 h2 => pyStrLe_trans h2 h1⟩
  have hsorted : S.Pairwise (fun a b : String => pyStrLe b a = true) :=
    List.sorted_insertionSort _ _
  have hAnd : A.Nodup := hnd.filter _
  have hSnd : S.Nodup := hperm.nodup_iff.mpr hAnd
  have hpw : S.Pairwise (fun a b => pyStrLt b a = true) := by
    refine (hsorted.and hSnd).imp ?_
    rintro a b ⟨hle, hne⟩
    exact pyStrLt_of_le_of_ne hle (fun h => hne h.symm)
  have h1 : (prune_archive dir keep).1 = S.drop keep := rfl
  have hmem : ∀ f, f ∈ (prune_archive dir keep).1 ↔
      f ∈ dir ∧ isArtifactName f = true ∧
        keep ≤ (A.filter (fun g => pyStrLt f g)).length := by
    intro f
    rw [h1, mem_drop_iff_countP hpw keep f, hperm.mem_iff,
      hperm.countP_eq, ← List.countP_eq_length_filter, hA, List.mem_filter]
    tauto
  refine ⟨hmem, ?_, ?_, by decide⟩
  · set R := S.drop keep with hR
    have hcomm : (prune_archive dir keep).2.filter isArtifactName =
        A.filter (fun f => !decide (f ∈ R)) := by
      show ((dir.filter (fun f => !decide (f ∈ R))).filter
        isArtifactName) = _
      rw [List.filter_comm]
    have hpf : (A.filter (fun f => !decide (f ∈ R))).length =
        (S.filter (fun f => !decide (f ∈ R))).length :=
      ((hperm.filter _).length_eq).symm
    have hdrop : R.filter (fun f => !decide (f ∈ R)) = [] := by
      rw [List.filter_eq_nil_iff]
      intro a ha
      simp [ha]
    have htake : (S.take keep).filter (fun f => !decide (f ∈ R)) =
        S.take keep := by
      rw [List.filter_eq_self]
      intro a ha
      have hnot : a ∉ R := by
        rw [hR]
        exact fun hd => List.disjoint_take_drop hSnd le_rfl ha hd
      simp [hnot]
    have hsplit : S.filter (fun f => !decide (f ∈ R)) = S.take keep := by
      conv_lhs => rw [← List.take_append_drop keep S]
      rw [List.filter_append, ← hR, hdrop, htake, List.append_nil]
    rw [hcomm, hpf, hsplit, List.length_take, hperm.length_eq]
  · intro f hf hnart
    rw [mem_after_prune]
    refine ⟨hf, fun hmem1 => ?_⟩
    rw [h1] at hmem1
    have : f ∈ S := List.mem_of_mem_drop hmem1
    rw [hperm.mem_iff, hA, List.mem_filter] at this
    rw [this.2] at hnart
    exact absurd hnart (by decide)

/-- C8: pruning is idempotent: a second `prune_archive` with the same
`keep` removes nothing and leaves the directory unchanged. -/
theorem prune_archive_idempotent (dir : List String) (keep : Nat) :
    (prune_archive (prune_archive dir keep).2 keep).1 = []
    ∧ (prune_archive (prune_archive dir keep).2 keep).2 =
        (prune_archive dir keep).2 := by
  set A := dir.filter isArtifactName with hA
  set S := List.insertionSort (fun a b : String => pyStrLe b a = true) A
    with hS
  have hperm : S.Perm A := List.perm_insertionSort _ _
  set R := S.drop keep with hR
  set after := dir.filter (fun f => !decide (f ∈ R)) with hafter
  have h2 : (prune_archive dir keep).2 = after := rfl
  have hcomm : after.filter isArtifactName =
      A.filter (fun f => !decide (f ∈ R)) := by
    rw [hafter, List.filter_comm, hA]
  have hlen : (after.filter isArtifactName).length ≤ keep := by
    rw [hcomm]
    have hpf : (A.filter (fun f => !decide (f ∈ R))).length =
        (S.filter (fun f => !decide (f ∈ R))).length :=
      ((hperm.filter _).length_eq).symm
    rw [hpf]
    have hsplit : S.filter (fun f => !decide (f ∈ R)) =
        (S.take keep).filter (fun f => !decide (f ∈ R)) := by
      conv_lhs => rw [← List.take_append_drop keep S]
      rw [List.filter_append, ← hR]
      have hdrop : R.filter (fun f => !decide (f ∈ R)) = [] := by
        rw [List.filter_eq_nil_iff]
        intro a ha
        simp [ha]
      rw [hdrop, List.append_nil]
    rw [hsplit]
    calc ((S.take keep).filter (fun f => !decide (f ∈ R))).length
        ≤ (S.take keep).length := List.length_filter_le _ _
      _ ≤ keep := List.length_take_le _ _
  have hfst : (prune_archive after keep).1 = [] := by
    show (List.insertionSort (fun a b : String => pyStrLe b a = true)
      (after.filter isArtifactName)).drop keep = []
    apply List.drop_eq_nil_of_le
    rw [(List.perm_insertionSort _ _).length_eq]
    exact hlen
  refine ⟨h2 ▸ hfst, ?_⟩
  rw [h2]
  have hsnd : (prune_archive after keep).2 =
      after.filter (fun f => !decide (f ∈ (prune_archive after keep).1)) :=
    rfl
  rw [hsnd, hfst]
  rw [List.filter_eq_self]
  intro a _
  simp

/-- Witness for C3: with `keep = 3`, five timestamped artifacts and one
`latest.html`, exactly the two oldest-by-name-sort artifacts are
removed, and `latest.html` survives. -/
theorem prune_archive_retention_witness :
    (["latest.html",
      "ebird_radius_map_2025-01-03_12-00-00_ET_10km.html",
      "ebird_radius_map_2025-01-01_12-00-00_ET_10km.html",
      "ebird_radius_map_2025-01-05_12-00-00_ET_10km.html",
      "ebird_radius_map_2025-01-02_12-00-00_ET_10km.html",
      "ebird_radius_map_2025-01-04_12-00-00_ET_10km.html"] :
      List String).Nodup
    ∧ (prune_archive
        ["latest.html",
         "ebird_radius_map_2025-01-03_12-00-00_ET_10km.html",
         "ebird_radius_map_2025-01-01_12-00-00_ET_10km.html",
         "ebird_radius_map_2025-01-05_12-00-00_ET_10km.html",
         "ebird_radius_map_2025-01-02_12-00-00_ET_10km.html",
         "ebird_radius_map_2025-01-04_12-00-00_ET_10km.html"] 3).1 =
      ["ebird_radius_map_2025-01-02_12-00-00_ET_10km.html",
       "ebird_radius_map_2025-01-01_12-00-00_ET_10km.html"]
    ∧ "latest.html" ∈ (prune_archive
        ["latest.html",
         "ebird_radius_map_2025-01-03_12-00-00_ET_10km.html",
         "ebird_radius_map_2025-01-01_12-00-00_ET_10km.html",
         "ebird_radius_map_2025-01-05_12-00-00_ET_10km.html",
         "ebird_radius_map_2025-01-02_12-00-00_ET_10km.html",
         "ebird_radius_map_2025-01-04_12-00-00_ET_10km.html"] 3).2 := by
  refine ⟨by decide, by decide, ?_⟩
  exact (prune_archive_retention
    ["latest.html",
     "ebird_radius_map_2025-01-03_12-00-00_ET_10km.html",
     "ebird_radius_map_2025-01-01_12-00-00_ET_10km.html",
     "ebird_radius_map_2025-01-05_12-00-00_ET_10km.html",
     "ebird_radius_map_2025-01-02_12-00-00_ET_10km.html",
     "ebird_radius_map_2025-01-04_12-00-00_ET_10km.html"] 3
    (by decide)).2.2.1 ("latest.html") (by decide) (by decide)
